import Mathlib

/-!
# swapi-graphql: the root fields of `src/schema/index.js`

A shallow embedding of the three field builders of the schema module
(`rootFieldByID`, `rootConnection`, `getObjectsByType`) and of what their
resolvers do with the `args` object GraphQL hands them.

The resolvers call into `./apiHelper` (the REST fetchers) and into the
`graphql-relay` package (`fromGlobalId`, `connectionFromArray`).  Neither is
part of the schema module, so the resolvers take them as parameters.  Where a
property rests on what the package computes, the Global-ID codec and the
connection builder are written out from sections 4.1 and 4.2 of the
specification and the resolvers are run with them.
-/

namespace SwapiGraphql

/-! ## JavaScript values and argument objects -/

/-- A value found under a key of a resolver's `args` object. -/
inductive JSValue where
  | undefined
  | null
  | num (n : Int)
  | str (s : String)
  deriving DecidableEq, Repr

/-- The `args` object of a resolver: `args k` is `args[k]`, and a key that is
not set reads as `undefined`. -/
abbrev Args := String → JSValue

/-- The string JavaScript concatenates for a value (`'' + v`). -/
def JSValue.toJSString : JSValue → String
  | .undefined => "undefined"
  | .null => "null"
  | .num n => toString n
  | .str s => s

/-- JavaScript truthiness, as tested by `v ? a : b`. -/
def JSValue.truthy : JSValue → Bool
  | .undefined => false
  | .null => false
  | .num n => n != 0
  | .str s => s != ""

/-! ## How a resolver ends -/

/-- How a call ends: it returns a value, it executes one of its own
`throw new Error(message)` statements, or an exception raised by a callee
escapes it. -/
inductive Outcome (ε β : Type) where
  | returned (value : β)
  | threw (message : String)
  | raised (e : ε)

/-- A resolver run: the calls it made to the REST fetcher
`getObjectFromTypeAndId(type, id)`, in order, and how it ended. -/
structure Run (ε β : Type) where
  fetches : List (String × JSValue)
  outcome : Outcome ε β

/-! ## `rootFieldByID` -/

/-- The object `fromGlobalId` returns: `{type, id}`. -/
structure ResolvedGlobalId where
  type : String
  id : JSValue
  deriving DecidableEq, Repr

/-- The closure `getter` of `rootFieldByID` (line 87):
`id => getObjectFromTypeAndId(swapiType, id)`. -/
def rootFieldByID.getter {ε β : Type} (getObjectFromTypeAndId : String → JSValue → β)
    (swapiType : String) (id : JSValue) : Run ε β :=
  { fetches := [(swapiType, id)], outcome := .returned (getObjectFromTypeAndId swapiType id) }

/-- The resolver of the field built by `rootFieldByID(idName, swapiType)`
(lines 95-113).  `fromGlobalId` is the decoder of `graphql-relay`; an
exception it raises is not caught by the resolver.  The `console.log` of
line 96 is left out. -/
def rootFieldByID.resolve {ε β : Type} (fromGlobalId : JSValue → Except ε ResolvedGlobalId)
    (getObjectFromTypeAndId : String → JSValue → β)
    (idName swapiType : String) (args : Args) : Run ε β :=
  if args idName ≠ .undefined ∧ args idName ≠ .null then
    rootFieldByID.getter getObjectFromTypeAndId swapiType (args idName)
  else if args "id" ≠ .undefined ∧ args "id" ≠ .null then
    match fromGlobalId (args "id") with
    | .error e => { fetches := [], outcome := .raised e }
    | .ok globalId =>
      if globalId.id = .null ∨ globalId.id = .undefined ∨ globalId.id = .str "" then
        { fetches := [],
          outcome := .threw ("No valid ID extracted from " ++ (args "id").toJSString) }
      else
        rootFieldByID.getter getObjectFromTypeAndId swapiType globalId.id
  else
    { fetches := [], outcome := .threw ("must provide id or " ++ idName) }

/-- An `args` object with the given keys set. -/
def mkArgs (entries : List (String × JSValue)) : Args :=
  fun k => ((entries.find? (fun e => e.1 == k)).map (fun e => e.2)).getD .undefined

/-! ## The Global-ID codec -/

/-- The UTF-8 bytes of a character. -/
def utf8Bytes (c : Char) : List Nat :=
  let n := c.toNat
  if n < 0x80 then [n]
  else if n < 0x800 then [0xC0 + n / 64, 0x80 + n % 64]
  else if n < 0x10000 then [0xE0 + n / 4096, 0x80 + n / 64 % 64, 0x80 + n % 64]
  else [0xF0 + n / 262144, 0x80 + n / 4096 % 64, 0x80 + n / 64 % 64, 0x80 + n % 64]

/-- The UTF-8 bytes of a string. -/
def utf8Encode (s : String) : List Nat :=
  s.toList.flatMap utf8Bytes

/-- The characters a list of UTF-8 bytes spells, `none` on a byte that does
not start or continue a character. -/
def utf8Decode : List Nat → Option (List Char)
  | [] => some []
  | a :: rest =>
    if a < 0x80 then (utf8Decode rest).map (fun cs => Char.ofNat a :: cs)
    else
      match rest with
      | [] => none
      | b :: rest2 =>
        if a < 0xE0 then
          (utf8Decode rest2).map (fun cs => Char.ofNat ((a - 0xC0) * 64 + (b - 0x80)) :: cs)
        else
          match rest2 with
          | [] => none
          | c :: rest3 =>
            if a < 0xF0 then
              (utf8Decode rest3).map
                (fun cs => Char.ofNat ((a - 0xE0) * 4096 + (b - 0x80) * 64 + (c - 0x80)) :: cs)
            else
              match rest3 with
              | [] => none
              | d :: rest4 =>
                (utf8Decode rest4).map
                  (fun cs => Char.ofNat
                    ((a - 0xF0) * 262144 + (b - 0x80) * 4096 + (c - 0x80) * 64 + (d - 0x80)) :: cs)

/-- The 64 digits of base64. -/
def base64Alphabet : List Char :=
  "ABCDEFGHIJKLMNOPQRSTUVWXYZabcdefghijklmnopqrstuvwxyz0123456789+/".toList

/-- The base64 digit of a six-bit value. -/
def base64Digit (n : Nat) : Char :=
  base64Alphabet.getD n '='

/-- The six-bit value of a base64 digit. -/
def base64Value (c : Char) : Option Nat :=
  if base64Alphabet.indexOf c < 64 then some (base64Alphabet.indexOf c) else none

/-- Base64 of a list of bytes, padded with `=`. -/
def base64Encode : List Nat → List Char
  | a :: b :: c :: rest =>
    base64Digit (a / 4) :: base64Digit (a % 4 * 16 + b / 16) ::
      base64Digit (b % 16 * 4 + c / 64) :: base64Digit (c % 64) :: base64Encode rest
  | [a, b] =>
    [base64Digit (a / 4), base64Digit (a % 4 * 16 + b / 16), base64Digit (b % 16 * 4), '=']
  | [a] => [base64Digit (a / 4), base64Digit (a % 4 * 16), '=', '=']
  | [] => []

/-- The bytes of a base64 text, `none` when a quantum is short or holds a
character that is no base64 digit. -/
def base64Decode : List Char → Option (List Nat)
  | [] => some []
  | w :: x :: y :: z :: rest =>
    match base64Value w, base64Value x with
    | some p, some q =>
      if y = '=' ∧ z = '=' ∧ rest = [] then some [p * 4 + q / 16]
      else
        match base64Value y with
        | none => none
        | some r =>
          if z = '=' ∧ rest = [] then some [p * 4 + q / 16, q % 16 * 16 + r / 4]
          else
            match base64Value z with
            | none => none
            | some t =>
              (base64Decode rest).map
                (fun bs => (p * 4 + q / 16) :: (q % 16 * 16 + r / 4) :: (r % 4 * 64 + t) :: bs)
    | _, _ => none
  | _ => none

/-- Modelled from the spec: the encoder of the Global-ID Codec (`toGlobalId`
of `graphql-relay`, which the schema module does not contain).  Section 4.1:
a reversible opaque string embedding both the type tag and the local id,
base64 of `"TypeTag:LocalId"`. -/
def toGlobalId (typeTag localId : String) : String :=
  String.mk (base64Encode (utf8Encode (typeTag ++ ":" ++ localId)))

/-- Modelled from the spec: the decoder of the Global-ID Codec (`fromGlobalId`
of `graphql-relay`, which the schema module does not contain).  Section 4.1:
it fails with `DecodeError` when the input is not well-formed, that is when it
cannot be reversed into a non-empty type tag and a non-empty local id. -/
def fromGlobalId : JSValue → Except String ResolvedGlobalId
  | .str globalId =>
    match (base64Decode globalId.toList).bind utf8Decode with
    | none => .error "DecodeError"
    | some unbased =>
      let typeTag := String.mk (unbased.takeWhile (fun c => c != ':'))
      let localId := String.mk ((unbased.dropWhile (fun c => c != ':')).drop 1)
      if typeTag ≠ "" ∧ localId ≠ "" ∧ toGlobalId typeTag localId = globalId then
        .ok { type := typeTag, id := .str localId }
      else .error "DecodeError"
  | _ => .error "DecodeError"

/-! ## Connections -/

/-- An edge of a connection: `{cursor, node}`. -/
structure Edge (α : Type) where
  node : α
  cursor : String

/-- The `pageInfo` object of a connection; a cursor that is `null` is `none`. -/
structure PageInfo where
  startCursor : Option String
  endCursor : Option String
  hasPreviousPage : Bool
  hasNextPage : Bool
  deriving DecidableEq, Repr

/-- The object `connectionFromArray` returns: `{edges, pageInfo}`. -/
structure Connection (α : Type) where
  edges : List (Edge α)
  pageInfo : PageInfo

/-- The object the connection resolvers return:
`{...connectionFromArray(objects, args), totalCount}`. -/
structure CountedConnection (α τ : Type) where
  edges : List (Edge α)
  pageInfo : PageInfo
  totalCount : τ

/-- What the REST layer resolves to: `{objects, totalCount}`. -/
structure FetchedObjects (α τ : Type) where
  objects : List α
  totalCount : τ

/-- The object literal `{...connection, totalCount}` (lines 73-76 and 154-157):
the spread copies `edges` and `pageInfo`, then `totalCount` is set. -/
def withTotalCount {α τ : Type} (connection : Connection α) (totalCount : τ) :
    CountedConnection α τ :=
  { edges := connection.edges, pageInfo := connection.pageInfo, totalCount := totalCount }

/-- The resolver of the field built by `rootConnection(name, swapiType)`
(lines 150-158).  `apiGetObjectsByType` is `getObjectsByType` of `./apiHelper`
and `connectionFromArray` the builder of `graphql-relay`; a failure of either
is not caught and becomes the failure of the resolver. -/
def rootConnection.resolve {ε α τ : Type}
    (apiGetObjectsByType : String → Except ε (FetchedObjects α τ))
    (connectionFromArray : List α → Args → Except ε (Connection α))
    (swapiType : String) (args : Args) : Except ε (CountedConnection α τ) :=
  match apiGetObjectsByType swapiType with
  | .error e => .error e
  | .ok fetched =>
    match connectionFromArray fetched.objects args with
    | .error e => .error e
    | .ok connection => .ok (withTotalCount connection fetched.totalCount)

/-! ## The connection builder -/

/-- Modelled from the spec: the cursor encoding of the Connection Builder,
which the schema module does not contain.  The specification leaves the
format open (an opaque token encoding a position), so both directions are
fields: the cursor of an offset, and the offset of a cursor (`none` for a
malformed cursor). -/
structure CursorCodec where
  offsetToCursor : Nat → String
  cursorToOffset : String → Option Nat

/-- Modelled from the spec: step 1 of the Connection Builder (section 4.2).
The offset a cursor argument (`after`, `before`) names: `none` when the
argument is not supplied or its cursor is malformed. -/
def cursorArg (codec : CursorCodec) : JSValue → Option Nat
  | .str cursor => codec.cursorToOffset cursor
  | _ => none

/-- Modelled from the spec: the count arguments of the Connection Builder
(section 4.2).  The number `first` or `last` holds: `none` when the argument is
not supplied. -/
def countArg : JSValue → Option Int
  | .num n => some n
  | _ => none

/-- Modelled from the spec: step 3 of the Connection Builder (section 4.2),
truncate the slice to its first `n` elements when `first` is given. -/
def applyFirst {β : Type} (first : Option Int) (slice : List β) : List β :=
  match first with
  | some n => slice.take n.toNat
  | none => slice

/-- Modelled from the spec: step 3 of the Connection Builder (section 4.2),
truncate the slice to its last `n` elements when `last` is given. -/
def applyLast {β : Type} (last : Option Int) (slice : List β) : List β :=
  match last with
  | some n => slice.drop (slice.length - n.toNat)
  | none => slice

/-- Modelled from the spec: steps 1 to 3 of the Connection Builder (section
4.2).  The slice starts after the `after` offset, or at 0, and ends before the
`before` offset, or at `records.length`; `first` is applied, then `last`.  The
result lists the records of the slice, each with its absolute offset in
`records`. -/
def connectionSlice {α : Type} (codec : CursorCodec) (records : List α) (args : Args) :
    List (Nat × α) :=
  let start :=
    match cursorArg codec (args "after") with
    | some offset => offset + 1
    | none => 0
  let stop :=
    match cursorArg codec (args "before") with
    | some offset => offset
    | none => records.length
  applyLast (countArg (args "last"))
    (applyFirst (countArg (args "first")) ((records.enum.drop start).take (stop - start)))

/-- Modelled from the spec: the Connection Builder (`connectionFromArray` of
`graphql-relay`, which the schema module does not contain), section 4.2.
A negative `first` or `last` fails with `InvalidArgumentError`.  Otherwise:
(1) `after` and `before` are decoded into offsets, a malformed cursor counting
as absent; (2) the slice starts after the `after` offset, or at 0, and ends
before the `before` offset, or at `records.length`; (3) `first` truncates the
slice to its first elements, then `last` to its last; (4) one edge per record
of the slice, in order, its cursor encoding the absolute offset of the record;
(5) `hasNextPage` says that the last absolute offset of the slice is less
than `records.length - 1`, `hasPreviousPage` that the first is greater than 0
(both `false` for an empty slice, which has no offsets).  `startCursor` and
`endCursor` are the cursors of the first and last edge. -/
def connectionFromArray {α : Type} (codec : CursorCodec) (records : List α) (args : Args) :
    Except String (Connection α) :=
  if (∃ n, countArg (args "first") = some n ∧ n < 0) ∨
      (∃ n, countArg (args "last") = some n ∧ n < 0) then
    .error "InvalidArgumentError"
  else
    let slice := connectionSlice codec records args
    let edges := slice.map (fun r => ({ node := r.2, cursor := codec.offsetToCursor r.1 } : Edge α))
    .ok
      { edges := edges,
        pageInfo :=
          { startCursor := edges.head?.map (fun e => e.cursor),
            endCursor := edges.getLast?.map (fun e => e.cursor),
            hasPreviousPage :=
              match slice.head? with
              | some r => decide (0 < r.1)
              | none => false,
            hasNextPage :=
              match slice.getLast? with
              | some r => decide ((r.1 : Int) < (records.length : Int) - 1)
              | none => false } }

/-- Modelled from the spec: steps 2 and 3 of the Connection Builder (section
4.2) by arithmetic on offsets.  Given where the slice starts and stops and the
counts `first` and `last`, for a list of `length` records, the offsets
`(s, e)` such that the slice holds the records at `s`, ..., `e - 1`. -/
def clampBounds (start stop length : Nat) (first last : Option Int) : Nat × Nat :=
  let lo := min start length
  let hi := max lo (min stop length)
  let hi1 :=
    match first with
    | some n => min hi (lo + n.toNat)
    | none => hi
  let lo1 :=
    match last with
    | some n => max lo (hi1 - n.toNat)
    | none => lo
  (lo1, hi1)

/-- Modelled from the spec: the offsets `(s, e)` between which the slice of
the Connection Builder lies for given arguments (section 4.2, steps 1 to 3).
It starts after the `after` offset, or at 0, stops before the `before` offset,
or at `length`, and is cut by `first`, then by `last`. -/
def sliceBounds (codec : CursorCodec) (length : Nat) (args : Args) : Nat × Nat :=
  clampBounds
    (match cursorArg codec (args "after") with
      | some offset => offset + 1
      | none => 0)
    (match cursorArg codec (args "before") with
      | some offset => offset
      | none => length)
    length (countArg (args "first")) (countArg (args "last"))

/-- The records at offsets `s`, `s + 1`, ... (at most `m` of them), each with
its offset. -/
def window {α : Type} (records : List α) (s m : Nat) : List (Nat × α) :=
  List.enumFrom s ((records.drop s).take m)

/-- The decimal digits of a number, most significant first. -/
def decimalDigits (n : Nat) : List Char :=
  Nat.toDigits 10 n

/-- The number a list of decimal digits spells, `none` when a character is
not a digit. -/
def decimalValue : List Char → Option Nat
  | [] => none
  | cs => cs.foldl
      (fun acc c => acc.bind (fun n => if c.isDigit then some (n * 10 + (c.toNat - 48)) else none))
      (some 0)

/-- A cursor codec to run the connection builder with: the cursor of an
offset is the offset in decimal. -/
def decimalCursor : CursorCodec :=
  { offsetToCursor := fun i => String.mk (decimalDigits i),
    cursorToOffset := fun s => decimalValue s.toList }

/-! ## `getObjectsByType`: the search fields -/

/-- Line 67: `const query = args.name ? args.name : args.title`. -/
def getObjectsByType.query (args : Args) : JSValue :=
  if (args "name").truthy then args "name" else args "title"

/-- A run of a search resolver: the arguments of its call
`queryObjects(objectType, query)` and what it resolves to. -/
structure SearchRun (ε α τ : Type) where
  queried : String × JSValue
  result : Except ε (CountedConnection α τ)

/-- The resolver of the field built by `getObjectsByType(objectType)`
(lines 66-77).  The `console.log` of line 72 is left out. -/
def getObjectsByType.resolve {ε α τ : Type}
    (queryObjects : String → JSValue → Except ε (FetchedObjects α τ))
    (connectionFromArray : List α → Args → Except ε (Connection α))
    (objectType : String) (args : Args) : SearchRun ε α τ :=
  let query := getObjectsByType.query args
  { queried := (objectType, query),
    result :=
      match queryObjects objectType query with
      | .error e => .error e
      | .ok fetched =>
        match connectionFromArray fetched.objects args with
        | .error e => .error e
        | .ok connection => .ok (withTotalCount connection fetched.totalCount) }

/-! ## Theorems: the by-ID fields -/

/-- A message of the `No valid ID` throw is never a message of the
`must provide` throw: they differ in their first character. -/
theorem noValidId_ne_mustProvide (a b : String) :
    "No valid ID extracted from " ++ a ≠ "must provide id or " ++ b := by
  intro h
  have h2 := congrArg String.data h
  simp only [String.data_append] at h2
  have h3 : ("No valid ID extracted from ".data ++ a.data).head? =
      ("must provide id or ".data ++ b.data).head? := by rw [h2]
  simp at h3

/-- C1: when `args[idName]` is neither `undefined` nor `null`, the by-ID
resolver makes the one call `getObjectFromTypeAndId(swapiType, args[idName])`
and returns its result, whatever `args.id` holds and whatever the decoder
would do with it: the decoder is never consulted and nothing is thrown. -/
theorem rootFieldByID_resolve_local_id {ε β : Type}
    (fromGlobalId : JSValue → Except ε ResolvedGlobalId)
    (getObjectFromTypeAndId : String → JSValue → β)
    (idName swapiType : String) (args : Args)
    (hu : args idName ≠ .undefined) (hn : args idName ≠ .null) :
    rootFieldByID.resolve fromGlobalId getObjectFromTypeAndId idName swapiType args =
      { fetches := [(swapiType, args idName)],
        outcome := .returned (getObjectFromTypeAndId swapiType (args idName)) } := by
  unfold rootFieldByID.resolve
  rw [if_pos ⟨hu, hn⟩]
  rfl

/-- C1 at `person(personID: "4", id: "???")` with a decoder that raises on
every input: the fetch by local id `"4"` is still what the resolver returns. -/
theorem rootFieldByID_resolve_local_id_witness :
    rootFieldByID.resolve (fun _ => (Except.error () : Except Unit ResolvedGlobalId))
        (fun t i => (t, i)) "personID" "people"
        (mkArgs [("personID", .str "4"), ("id", .str "???")]) =
      { fetches := [("people", .str "4")],
        outcome := .returned ("people", JSValue.str "4") } :=
  rootFieldByID_resolve_local_id (fun _ => Except.error ()) (fun t i => (t, i))
    "personID" "people" (mkArgs [("personID", .str "4"), ("id", .str "???")])
    (by decide) (by decide)

/-- C4: the by-ID resolver ends in `throw new Error('must provide id or ' +
idName)` exactly when both `args[idName]` and `args.id` are `undefined` or
`null`, and in that case it makes no call to the fetcher. -/
theorem rootFieldByID_resolve_missing_iff {ε β : Type}
    (fromGlobalId : JSValue → Except ε ResolvedGlobalId)
    (getObjectFromTypeAndId : String → JSValue → β)
    (idName swapiType : String) (args : Args) :
    ((rootFieldByID.resolve fromGlobalId getObjectFromTypeAndId idName swapiType args).outcome =
        .threw ("must provide id or " ++ idName) ↔
      (args idName = .undefined ∨ args idName = .null) ∧
        (args "id" = .undefined ∨ args "id" = .null)) ∧
    ((args idName = .undefined ∨ args idName = .null) ∧
        (args "id" = .undefined ∨ args "id" = .null) →
      (rootFieldByID.resolve fromGlobalId getObjectFromTypeAndId idName swapiType args).fetches
        = []) := by
  unfold rootFieldByID.resolve
  by_cases h1 : args idName ≠ .undefined ∧ args idName ≠ .null
  · rw [if_pos h1]
    have hno : ¬ ((args idName = .undefined ∨ args idName = .null) ∧
        (args "id" = .undefined ∨ args "id" = .null)) := by
      rintro ⟨h | h, _⟩
      · exact h1.1 h
      · exact h1.2 h
    constructor
    · constructor
      · intro h; simp [rootFieldByID.getter] at h
      · intro h; exact absurd h hno
    · intro h; exact absurd h hno
  · rw [if_neg h1]
    have hl : args idName = .undefined ∨ args idName = .null := by
      by_contra hc
      push_neg at hc
      exact h1 hc
    by_cases h2 : args "id" ≠ .undefined ∧ args "id" ≠ .null
    · rw [if_pos h2]
      have hno : ¬ ((args idName = .undefined ∨ args idName = .null) ∧
          (args "id" = .undefined ∨ args "id" = .null)) := by
        rintro ⟨_, h | h⟩
        · exact h2.1 h
        · exact h2.2 h
      constructor
      · constructor
        · intro h
          cases hd : fromGlobalId (args "id") with
          | error e => simp [hd] at h
          | ok g =>
            simp only [hd] at h
            split at h
            · simp only [Outcome.threw.injEq] at h
              exact absurd h (noValidId_ne_mustProvide _ _)
            · simp [rootFieldByID.getter] at h
        · intro h; exact absurd h hno
      · intro h; exact absurd h hno
    · rw [if_neg h2]
      have hr : args "id" = .undefined ∨ args "id" = .null := by
        by_contra hc
        push_neg at hc
        exact h2 hc
      exact ⟨⟨fun _ => ⟨hl, hr⟩, fun _ => rfl⟩, fun _ => rfl⟩

/-- C4 at `person` with an empty `args` object: the missing-argument throw,
and no fetch. -/
theorem rootFieldByID_resolve_missing_witness :
    (rootFieldByID.resolve (fun _ => (Except.error () : Except Unit ResolvedGlobalId))
        (fun t i => (t, i)) "personID" "people" (mkArgs [])).outcome =
      .threw "must provide id or personID" ∧
    (rootFieldByID.resolve (fun _ => (Except.error () : Except Unit ResolvedGlobalId))
        (fun t i => (t, i)) "personID" "people" (mkArgs [])).fetches = [] :=
  have h := rootFieldByID_resolve_missing_iff
    (fun _ => (Except.error () : Except Unit ResolvedGlobalId))
    (fun t i => (t, i)) "personID" "people" (mkArgs [])
  have hb : (mkArgs [] "personID" = .undefined ∨ mkArgs [] "personID" = .null) ∧
      (mkArgs [] "id" = .undefined ∨ mkArgs [] "id" = .null) :=
    ⟨Or.inl rfl, Or.inl rfl⟩
  ⟨h.1.2 hb, h.2 hb⟩

/-- The by-ID resolver when only `args.id` is set and the decoder returns a
local id that is a non-empty string: one fetch by that local id. -/
theorem rootFieldByID_resolve_decoded {ε β : Type}
    (fromGlobalId : JSValue → Except ε ResolvedGlobalId)
    (getObjectFromTypeAndId : String → JSValue → β)
    (idName swapiType : String) (args : Args) (t l : String)
    (hl : args idName = .undefined ∨ args idName = .null)
    (hu : args "id" ≠ .undefined) (hn : args "id" ≠ .null)
    (hd : fromGlobalId (args "id") = .ok { type := t, id := .str l }) (hne : l ≠ "") :
    rootFieldByID.resolve fromGlobalId getObjectFromTypeAndId idName swapiType args =
      { fetches := [(swapiType, .str l)],
        outcome := .returned (getObjectFromTypeAndId swapiType (.str l)) } := by
  unfold rootFieldByID.resolve
  have h1 : ¬ (args idName ≠ .undefined ∧ args idName ≠ .null) := by
    rintro ⟨a, b⟩
    rcases hl with h | h
    · exact a h
    · exact b h
  rw [if_neg h1, if_pos ⟨hu, hn⟩]
  simp only [hd]
  have h2 : ¬ (JSValue.str l = .null ∨ JSValue.str l = .undefined ∨ JSValue.str l = .str "") := by
    simp [hne]
  rw [if_neg h2]
  rfl

/-! ## Lemmas: the round trip of the Global-ID codec -/

theorem base64Value_digit (k : Nat) (hk : k < 64) : base64Value (base64Digit k) = some k := by
  interval_cases k <;> rfl

theorem base64Digit_ne_pad (k : Nat) (hk : k < 64) : base64Digit k ≠ '=' := by
  interval_cases k <;> decide

/-- Decoding a quantum of four digits, none of them padding. -/
theorem base64Decode_quantum (w x y z : Char) (rest : List Char) (p q r t : Nat)
    (hw : base64Value w = some p) (hx : base64Value x = some q)
    (hy : base64Value y = some r) (hz : base64Value z = some t)
    (hy2 : y ≠ '=') (hz2 : z ≠ '=') :
    base64Decode (w :: x :: y :: z :: rest) =
      (base64Decode rest).map
        (fun bs => (p * 4 + q / 16) :: (q % 16 * 16 + r / 4) :: (r % 4 * 64 + t) :: bs) := by
  rw [base64Decode]
  simp [hw, hx, hy, hz, hy2, hz2]

/-- Base64 decoding reverses base64 encoding of bytes. -/
theorem base64Decode_encode (bs : List Nat) (h : ∀ b ∈ bs, b < 256) :
    base64Decode (base64Encode bs) = some bs := by
  induction bs using base64Encode.induct with
  | case1 a b c rest ih =>
    have ha : a < 256 := h a (by simp)
    have hb : b < 256 := h b (by simp)
    have hc : c < 256 := h c (by simp)
    have hrest : ∀ x ∈ rest, x < 256 := fun x hx => h x (by simp [hx])
    rw [base64Encode]
    rw [base64Decode_quantum _ _ _ _ _ _ _ _ _
      (base64Value_digit _ (by omega)) (base64Value_digit _ (by omega))
      (base64Value_digit _ (by omega)) (base64Value_digit _ (by omega))
      (base64Digit_ne_pad _ (by omega)) (base64Digit_ne_pad _ (by omega))]
    rw [ih hrest]
    simp only [Option.map_some', Option.some.injEq, List.cons.injEq, and_true]
    refine ⟨by omega, by omega, by omega⟩
  | case2 a b =>
    have ha : a < 256 := h a (by simp)
    have hb : b < 256 := h b (by simp)
    rw [base64Encode, base64Decode]
    simp [base64Value_digit _ (show a / 4 < 64 by omega),
      base64Value_digit _ (show a % 4 * 16 + b / 16 < 64 by omega),
      base64Value_digit _ (show b % 16 * 4 < 64 by omega),
      base64Digit_ne_pad _ (show b % 16 * 4 < 64 by omega)]
    omega
  | case3 a =>
    have ha : a < 256 := h a (by simp)
    rw [base64Encode, base64Decode]
    simp [base64Value_digit _ (show a / 4 < 64 by omega),
      base64Value_digit _ (show a % 4 * 16 < 64 by omega)]
    omega
  | case4 => rfl

theorem char_toNat_lt (c : Char) : c.toNat < 0x110000 := by
  have h := c.valid
  unfold UInt32.isValidChar Nat.isValidChar at h
  unfold Char.toNat
  omega

theorem utf8Bytes_lt (c : Char) : ∀ b ∈ utf8Bytes c, b < 256 := by
  have hc := char_toNat_lt c
  intro b hb
  unfold utf8Bytes at hb
  simp only [] at hb
  split_ifs at hb <;> simp at hb <;> omega

/-- Decoding the bytes of one character gives the character back. -/
theorem utf8Decode_bytes (c : Char) (rest : List Nat) :
    utf8Decode (utf8Bytes c ++ rest) = (utf8Decode rest).map (fun cs => c :: cs) := by
  have hc := char_toNat_lt c
  have hof : ∀ n, n = c.toNat → Char.ofNat n = c := by
    intro n hn; rw [hn]; exact Char.ofNat_toNat c
  unfold utf8Bytes
  simp only []
  split_ifs with h1 h2 h3
  · simp only [List.singleton_append]
    conv_lhs => rw [utf8Decode.eq_def]
    simp only []
    rw [if_pos h1, hof _ rfl]
  · simp only [List.cons_append, List.nil_append]
    conv_lhs => rw [utf8Decode.eq_def]
    simp only []
    rw [if_neg (by omega), if_pos (by omega), hof _ (by omega)]
  · simp only [List.cons_append, List.nil_append]
    conv_lhs => rw [utf8Decode.eq_def]
    simp only []
    rw [if_neg (by omega), if_neg (by omega), if_pos (by omega), hof _ (by omega)]
  · simp only [List.cons_append, List.nil_append]
    conv_lhs => rw [utf8Decode.eq_def]
    simp only []
    rw [if_neg (by omega), if_neg (by omega), if_neg (by omega), hof _ (by omega)]

/-- UTF-8 decoding reverses UTF-8 encoding. -/
theorem utf8Decode_encode (cs : List Char) : utf8Decode (cs.flatMap utf8Bytes) = some cs := by
  induction cs with
  | nil => rfl
  | cons c cs ih =>
    rw [List.flatMap_cons, utf8Decode_bytes, ih]
    rfl

theorem utf8Encode_lt (s : String) : ∀ b ∈ utf8Encode s, b < 256 := by
  intro b hb
  unfold utf8Encode at hb
  rw [List.mem_flatMap] at hb
  obtain ⟨c, _, hc⟩ := hb
  exact utf8Bytes_lt c b hc

theorem takeWhile_colon (t l : List Char) (ht : ':' ∉ t) :
    (t ++ ':' :: l).takeWhile (fun c => c != ':') = t := by
  induction t with
  | nil => simp
  | cons a t ih =>
    have ha : a ≠ ':' := fun h => ht (by simp [h])
    have ht2 : ':' ∉ t := fun h => ht (by simp [h])
    simp [List.takeWhile_cons, ha, ih ht2]

theorem dropWhile_colon (t l : List Char) (ht : ':' ∉ t) :
    (t ++ ':' :: l).dropWhile (fun c => c != ':') = ':' :: l := by
  induction t with
  | nil => simp
  | cons a t ih =>
    have ha : a ≠ ':' := fun h => ht (by simp [h])
    have ht2 : ':' ∉ t := fun h => ht (by simp [h])
    simp [List.dropWhile_cons, ha, ih ht2]

/-- The round trip of the Global-ID codec: `fromGlobalId` reverses
`toGlobalId(t, l)` into `(t, l)` for every non-empty type tag `t` without a
colon and every non-empty local id `l`. -/
theorem fromGlobalId_toGlobalId (t l : String) (ht : t ≠ "") (hl : l ≠ "")
    (hcolon : ':' ∉ t.toList) :
    fromGlobalId (.str (toGlobalId t l)) = .ok { type := t, id := .str l } := by
  have hdec : (base64Decode (toGlobalId t l).toList).bind utf8Decode =
      some (t.toList ++ ':' :: l.toList) := by
    unfold toGlobalId
    simp only [String.toList]
    rw [base64Decode_encode _ (utf8Encode_lt _)]
    simp only [Option.some_bind]
    unfold utf8Encode
    rw [utf8Decode_encode]
    simp [String.toList, String.data_append]
  unfold fromGlobalId
  simp only [hdec]
  rw [takeWhile_colon _ _ hcolon, dropWhile_colon _ _ hcolon]
  simp only [List.drop_succ_cons, List.drop_zero]
  have h1 : String.mk t.toList = t := rfl
  have h2 : String.mk l.toList = l := rfl
  rw [h1, h2, if_pos ⟨ht, hl, rfl⟩]

/-! ## Theorems: the by-ID fields and the Global-ID codec -/

/-- For a codec that reverses `encode(t, l)` into `(t, l)` and a non-empty
local id `l`, resolving a by-ID field with only `args.id = encode(t, l)` gives
the same run as resolving it with only `args[idName] = l`. -/
theorem resolve_by_global_id_of_roundtrip {ε β : Type}
    (encode : String → String → String)
    (decode : JSValue → Except ε ResolvedGlobalId)
    (getObjectFromTypeAndId : String → JSValue → β)
    (idName swapiType t l : String) (argsGlobal argsLocal : Args)
    (hl : l ≠ "")
    (hrt : decode (.str (encode t l)) = .ok { type := t, id := .str l })
    (hg1 : argsGlobal "id" = .str (encode t l))
    (hg2 : argsGlobal idName = .undefined ∨ argsGlobal idName = .null)
    (hl1 : argsLocal idName = .str l) :
    rootFieldByID.resolve decode getObjectFromTypeAndId idName swapiType argsGlobal =
        rootFieldByID.resolve decode getObjectFromTypeAndId idName swapiType argsLocal ∧
      rootFieldByID.resolve decode getObjectFromTypeAndId idName swapiType argsLocal =
        { fetches := [(swapiType, .str l)],
          outcome := .returned (getObjectFromTypeAndId swapiType (.str l)) } := by
  have hL : rootFieldByID.resolve decode getObjectFromTypeAndId idName swapiType argsLocal =
      { fetches := [(swapiType, .str l)],
        outcome := .returned (getObjectFromTypeAndId swapiType (.str l)) } := by
    unfold rootFieldByID.resolve
    rw [if_pos (by simp [hl1])]
    simp [rootFieldByID.getter, hl1]
  have hG := rootFieldByID_resolve_decoded decode getObjectFromTypeAndId idName swapiType
    argsGlobal t l hg2 (by simp [hg1]) (by simp [hg1]) (by rw [hg1]; exact hrt) hl
  exact ⟨hG.trans hL.symm, hL⟩

/-- C2 as stated fails at the type tag `a:b` with local id `c` on the field
`person`.  The global id of `("a:b", "c")` is `YTpiOmM=`, base64 of `a:b:c`;
the decoder splits it at the first colon into `("a", "b:c")`, so
`person(id: "YTpiOmM=")` fetches `people` number `b:c` while
`person(personID: "c")` fetches `people` number `c`. -/
theorem rootFieldByID_resolve_global_eq_local_counterexample :
    toGlobalId "a:b" "c" = "YTpiOmM=" ∧
    fromGlobalId (.str "YTpiOmM=") = .ok { type := "a", id := .str "b:c" } ∧
    rootFieldByID.resolve fromGlobalId (fun t i => (t, i)) "personID" "people"
        (mkArgs [("id", .str (toGlobalId "a:b" "c"))]) =
      { fetches := [("people", .str "b:c")],
        outcome := .returned ("people", JSValue.str "b:c") } ∧
    rootFieldByID.resolve fromGlobalId (fun t i => (t, i)) "personID" "people"
        (mkArgs [("personID", .str "c")]) =
      { fetches := [("people", .str "c")], outcome := .returned ("people", JSValue.str "c") } ∧
    (rootFieldByID.resolve fromGlobalId (fun t i => (t, i)) "personID" "people"
        (mkArgs [("id", .str (toGlobalId "a:b" "c"))])).fetches ≠
      (rootFieldByID.resolve fromGlobalId (fun t i => (t, i)) "personID" "people"
        (mkArgs [("personID", .str "c")])).fetches := by
  have hG : rootFieldByID.resolve fromGlobalId (fun t i => (t, i)) "personID" "people"
      (mkArgs [("id", .str (toGlobalId "a:b" "c"))]) =
      ({ fetches := [("people", .str "b:c")],
         outcome := .returned ("people", JSValue.str "b:c") } :
        Run String (String × JSValue)) := by rfl
  have hL : rootFieldByID.resolve fromGlobalId (fun t i => (t, i)) "personID" "people"
      (mkArgs [("personID", .str "c")]) =
      ({ fetches := [("people", .str "c")],
         outcome := .returned ("people", JSValue.str "c") } :
        Run String (String × JSValue)) := by rfl
  refine ⟨by decide, by rfl, hG, hL, ?_⟩
  rw [hG, hL]
  decide

/-- C2, as amended: for every non-empty type tag `t` that holds no colon and
every non-empty local id `l`, resolving a by-ID field with only
`args.id = toGlobalId(t, l)` gives the same run as resolving it with only
`args[idName] = l`: the single fetch `getObjectFromTypeAndId(swapiType, l)`. -/
theorem rootFieldByID_resolve_global_eq_local {β : Type}
    (getObjectFromTypeAndId : String → JSValue → β)
    (idName swapiType t l : String) (argsGlobal argsLocal : Args)
    (ht : t ≠ "") (hl : l ≠ "") (hcolon : ':' ∉ t.toList)
    (hg1 : argsGlobal "id" = .str (toGlobalId t l))
    (hg2 : argsGlobal idName = .undefined ∨ argsGlobal idName = .null)
    (hl1 : argsLocal idName = .str l) :
    rootFieldByID.resolve fromGlobalId getObjectFromTypeAndId idName swapiType argsGlobal =
        rootFieldByID.resolve fromGlobalId getObjectFromTypeAndId idName swapiType argsLocal ∧
      rootFieldByID.resolve fromGlobalId getObjectFromTypeAndId idName swapiType argsLocal =
        { fetches := [(swapiType, .str l)],
          outcome := .returned (getObjectFromTypeAndId swapiType (.str l)) } :=
  resolve_by_global_id_of_roundtrip toGlobalId fromGlobalId
    getObjectFromTypeAndId idName swapiType t l argsGlobal argsLocal hl
    (fromGlobalId_toGlobalId t l ht hl hcolon) hg1 hg2 hl1

/-- C2 as amended, at the field `person` (`personID`, type `people`): the
global id of `("people", "4")` is `cGVvcGxlOjQ=`, and
`person(id: "cGVvcGxlOjQ=")` runs as `person(personID: "4")` does. -/
theorem rootFieldByID_resolve_global_eq_local_witness :
    toGlobalId "people" "4" = "cGVvcGxlOjQ=" ∧
    rootFieldByID.resolve fromGlobalId (fun t i => (t, i)) "personID" "people"
        (mkArgs [("id", .str (toGlobalId "people" "4"))]) =
      rootFieldByID.resolve fromGlobalId (fun t i => (t, i)) "personID" "people"
        (mkArgs [("personID", .str "4")]) ∧
    rootFieldByID.resolve fromGlobalId (fun t i => (t, i)) "personID" "people"
        (mkArgs [("personID", .str "4")]) =
      { fetches := [("people", .str "4")], outcome := .returned ("people", JSValue.str "4") } :=
  ⟨by decide,
   rootFieldByID_resolve_global_eq_local (fun t i => (t, i))
    "personID" "people" "people" "4"
    (mkArgs [("id", .str (toGlobalId "people" "4"))]) (mkArgs [("personID", .str "4")])
    (by decide) (by decide) (by decide) (by rfl) (Or.inl (by rfl)) (by rfl)⟩

/-- C3, as amended: with `args[idName]` absent and `args.id` present, the
by-ID resolver (a) throws `'No valid ID extracted from ' + args.id`, without a
fetch, when the decoder returns a local id that is `null`, `undefined` or the
empty string, and only then; (b) lets an exception raised by the decoder
escape unchanged, without a fetch.  The decoded type tag is not looked at. -/
theorem rootFieldByID_resolve_invalid_id {ε β : Type}
    (fromGlobalId : JSValue → Except ε ResolvedGlobalId)
    (getObjectFromTypeAndId : String → JSValue → β)
    (idName swapiType : String) (args : Args)
    (hl : args idName = .undefined ∨ args idName = .null)
    (hu : args "id" ≠ .undefined) (hn : args "id" ≠ .null) :
    (∀ g, fromGlobalId (args "id") = .ok g →
      (g.id = .null ∨ g.id = .undefined ∨ g.id = .str "") →
      rootFieldByID.resolve fromGlobalId getObjectFromTypeAndId idName swapiType args =
        { fetches := [],
          outcome := .threw ("No valid ID extracted from " ++ (args "id").toJSString) }) ∧
    ((rootFieldByID.resolve fromGlobalId getObjectFromTypeAndId idName swapiType args).outcome =
        .threw ("No valid ID extracted from " ++ (args "id").toJSString) →
      ∃ g, fromGlobalId (args "id") = .ok g ∧
        (g.id = .null ∨ g.id = .undefined ∨ g.id = .str "")) ∧
    (∀ e, fromGlobalId (args "id") = .error e →
      rootFieldByID.resolve fromGlobalId getObjectFromTypeAndId idName swapiType args =
        { fetches := [], outcome := .raised e }) := by
  have h1 : ¬ (args idName ≠ .undefined ∧ args idName ≠ .null) := by
    rintro ⟨a, b⟩
    rcases hl with h | h
    · exact a h
    · exact b h
  refine ⟨?_, ?_, ?_⟩
  · intro g hg hid
    unfold rootFieldByID.resolve
    rw [if_neg h1, if_pos ⟨hu, hn⟩]
    simp only [hg]
    rw [if_pos hid]
  · unfold rootFieldByID.resolve
    rw [if_neg h1, if_pos ⟨hu, hn⟩]
    intro h
    cases hd : fromGlobalId (args "id") with
    | error e => simp [hd] at h
    | ok g =>
      simp only [hd] at h
      by_cases hid : g.id = .null ∨ g.id = .undefined ∨ g.id = .str ""
      · exact ⟨g, rfl, hid⟩
      · rw [if_neg hid] at h
        simp [rootFieldByID.getter] at h
  · intro e he
    unfold rootFieldByID.resolve
    rw [if_neg h1, if_pos ⟨hu, hn⟩]
    simp only [he]

/-- C3 as amended, at `person(id: "x")` with a decoder that returns an empty
local id: the `No valid ID` throw and no fetch. -/
theorem rootFieldByID_resolve_invalid_id_witness :
    rootFieldByID.resolve
        (fun _ => (Except.ok { type := "people", id := .str "" } : Except Unit ResolvedGlobalId))
        (fun t i => (t, i)) "personID" "people" (mkArgs [("id", .str "x")]) =
      { fetches := [], outcome := .threw "No valid ID extracted from x" } :=
  (rootFieldByID_resolve_invalid_id
    (fun _ => (Except.ok { type := "people", id := .str "" } : Except Unit ResolvedGlobalId))
    (fun t i => (t, i)) "personID" "people" (mkArgs [("id", .str "x")])
    (Or.inl (by rfl)) (by decide) (by decide)).1 _ rfl (Or.inr (Or.inr rfl))

/-- C3 as stated fails at `person(id: "OjQ=")`.  `OjQ=` is base64 of `:4`, a
global id with an empty type tag, so it cannot be reversed into a non-empty
type tag and a non-empty local id.  The decoder of the codec fails on it with
`DecodeError`, the resolver does not catch that, and what ends the run is the
decoder's error and not the resolver's `No valid ID extracted from OjQ=`.
With a decoder that hands back the two parts `("", "4")` instead of failing,
the resolver fetches `people` number 4: it only ever tests the local id. -/
theorem rootFieldByID_resolve_malformed_counterexample :
    toGlobalId "" "4" = "OjQ=" ∧
    fromGlobalId (.str "OjQ=") = .error "DecodeError" ∧
    rootFieldByID.resolve fromGlobalId (fun t i => (t, i)) "personID" "people"
        (mkArgs [("id", .str "OjQ=")]) =
      { fetches := [], outcome := .raised "DecodeError" } ∧
    (rootFieldByID.resolve fromGlobalId (fun t i => (t, i)) "personID" "people"
        (mkArgs [("id", .str "OjQ=")])).outcome ≠
      .threw ("No valid ID extracted from " ++ "OjQ=") ∧
    rootFieldByID.resolve
        (fun _ => (Except.ok { type := "", id := .str "4" } : Except String ResolvedGlobalId))
        (fun t i => (t, i)) "personID" "people" (mkArgs [("id", .str "OjQ=")]) =
      { fetches := [("people", .str "4")], outcome := .returned ("people", JSValue.str "4") } := by
  refine ⟨by decide, by rfl, by rfl, ?_, by rfl⟩
  have h : rootFieldByID.resolve fromGlobalId (fun t i => (t, i)) "personID" "people"
      (mkArgs [("id", .str "OjQ=")]) =
      ({ fetches := [], outcome := .raised "DecodeError" } : Run String (String × JSValue)) := by
    rfl
  rw [h]
  simp

/-- C10 as stated fails on the field `person`.  With the type tag `a:b` the
global id of `("a:b", "4")` decodes to `("a", "b:4")` and the resolver fetches
`people` number `b:4`, while with the type tag `films` it fetches `people`
number `4`: the two runs differ.  With the empty type tag the global id `OjQ=`
cannot be reversed, the decoder fails and the run ends in its error. -/
theorem rootFieldByID_resolve_ignores_type_tag_counterexample :
    rootFieldByID.resolve fromGlobalId (fun t i => (t, i)) "personID" "people"
        (mkArgs [("id", .str (toGlobalId "a:b" "4"))]) =
      { fetches := [("people", .str "b:4")],
        outcome := .returned ("people", JSValue.str "b:4") } ∧
    rootFieldByID.resolve fromGlobalId (fun t i => (t, i)) "personID" "people"
        (mkArgs [("id", .str (toGlobalId "films" "4"))]) =
      { fetches := [("people", .str "4")], outcome := .returned ("people", JSValue.str "4") } ∧
    (rootFieldByID.resolve fromGlobalId (fun t i => (t, i)) "personID" "people"
        (mkArgs [("id", .str (toGlobalId "a:b" "4"))])).fetches ≠
      (rootFieldByID.resolve fromGlobalId (fun t i => (t, i)) "personID" "people"
        (mkArgs [("id", .str (toGlobalId "films" "4"))])).fetches ∧
    rootFieldByID.resolve fromGlobalId (fun t i => (t, i)) "personID" "people"
        (mkArgs [("id", .str (toGlobalId "" "4"))]) =
      { fetches := [], outcome := .raised "DecodeError" } := by
  have h1 : rootFieldByID.resolve fromGlobalId (fun t i => (t, i)) "personID" "people"
      (mkArgs [("id", .str (toGlobalId "a:b" "4"))]) =
      ({ fetches := [("people", .str "b:4")],
         outcome := .returned ("people", JSValue.str "b:4") } :
        Run String (String × JSValue)) := by rfl
  have h2 : rootFieldByID.resolve fromGlobalId (fun t i => (t, i)) "personID" "people"
      (mkArgs [("id", .str (toGlobalId "films" "4"))]) =
      ({ fetches := [("people", .str "4")],
         outcome := .returned ("people", JSValue.str "4") } :
        Run String (String × JSValue)) := by rfl
  refine ⟨h1, h2, ?_, by rfl⟩
  rw [h1, h2]
  decide

/-- C10, as amended: the type tag inside a global id plays no part in the
by-ID dispatch.  For every two non-empty type tags `t1` and `t2` that hold no
colon (tags other than `swapiType` included) and every non-empty local id `l`,
resolving with `args.id = toGlobalId(t1, l)` and with
`args.id = toGlobalId(t2, l)` give the same run, the single fetch
`getObjectFromTypeAndId(swapiType, l)` against the type of the field, and
neither ends in an error. -/
theorem rootFieldByID_resolve_ignores_type_tag {β : Type}
    (getObjectFromTypeAndId : String → JSValue → β)
    (idName swapiType t1 t2 l : String) (args1 args2 : Args)
    (ht1 : t1 ≠ "") (hc1 : ':' ∉ t1.toList) (ht2 : t2 ≠ "") (hc2 : ':' ∉ t2.toList)
    (hl : l ≠ "")
    (h1 : args1 "id" = .str (toGlobalId t1 l))
    (h1l : args1 idName = .undefined ∨ args1 idName = .null)
    (h2 : args2 "id" = .str (toGlobalId t2 l))
    (h2l : args2 idName = .undefined ∨ args2 idName = .null) :
    rootFieldByID.resolve fromGlobalId getObjectFromTypeAndId idName swapiType args1 =
        { fetches := [(swapiType, .str l)],
          outcome := .returned (getObjectFromTypeAndId swapiType (.str l)) } ∧
      rootFieldByID.resolve fromGlobalId getObjectFromTypeAndId idName swapiType args2 =
        { fetches := [(swapiType, .str l)],
          outcome := .returned (getObjectFromTypeAndId swapiType (.str l)) } :=
  ⟨rootFieldByID_resolve_decoded fromGlobalId getObjectFromTypeAndId idName swapiType args1
      t1 l h1l (by simp [h1]) (by simp [h1])
      (by rw [h1]; exact fromGlobalId_toGlobalId t1 l ht1 hl hc1) hl,
   rootFieldByID_resolve_decoded fromGlobalId getObjectFromTypeAndId idName swapiType args2
      t2 l h2l (by simp [h2]) (by simp [h2])
      (by rw [h2]; exact fromGlobalId_toGlobalId t2 l ht2 hl hc2) hl⟩

/-- C10 as amended, at the field `person` (type `people`): the global ids of
`("people", "4")` and of `("films", "4")` both fetch `people` number 4. -/
theorem rootFieldByID_resolve_ignores_type_tag_witness :
    toGlobalId "films" "4" = "ZmlsbXM6NA==" ∧
    rootFieldByID.resolve fromGlobalId (fun t i => (t, i)) "personID" "people"
        (mkArgs [("id", .str (toGlobalId "people" "4"))]) =
      { fetches := [("people", .str "4")], outcome := .returned ("people", JSValue.str "4") } ∧
    rootFieldByID.resolve fromGlobalId (fun t i => (t, i)) "personID" "people"
        (mkArgs [("id", .str (toGlobalId "films" "4"))]) =
      { fetches := [("people", .str "4")], outcome := .returned ("people", JSValue.str "4") } :=
  ⟨by decide,
   rootFieldByID_resolve_ignores_type_tag (fun t i => (t, i))
    "personID" "people" "people" "films" "4"
    (mkArgs [("id", .str (toGlobalId "people" "4"))])
    (mkArgs [("id", .str (toGlobalId "films" "4"))])
    (by decide) (by decide) (by decide) (by decide) (by decide)
    (by rfl) (Or.inl (by rfl)) (by rfl) (Or.inl (by rfl))⟩

/-! ## Theorems: the connection and search fields -/

/-- C5: once the REST layer has answered `{objects, totalCount}`, the
connection resolver and the search resolver both return
`connectionFromArray(objects, args)` with its `edges` and `pageInfo` untouched
and `totalCount` set to the reported count as it is, whatever builder is
plugged in and whatever the count is; a failure of the builder is their
failure. -/
theorem resolve_totalCount_verbatim {ε α τ : Type}
    (apiGetObjectsByType : String → Except ε (FetchedObjects α τ))
    (queryObjects : String → JSValue → Except ε (FetchedObjects α τ))
    (connectionFromArray : List α → Args → Except ε (Connection α))
    (swapiType : String) (args : Args) (objects : List α) (totalCount : τ) :
    (apiGetObjectsByType swapiType = .ok { objects := objects, totalCount := totalCount } →
      (∀ connection, connectionFromArray objects args = .ok connection →
        rootConnection.resolve apiGetObjectsByType connectionFromArray swapiType args =
          .ok { edges := connection.edges, pageInfo := connection.pageInfo,
                totalCount := totalCount }) ∧
      (∀ e, connectionFromArray objects args = .error e →
        rootConnection.resolve apiGetObjectsByType connectionFromArray swapiType args =
          .error e)) ∧
    (queryObjects swapiType (getObjectsByType.query args) =
        .ok { objects := objects, totalCount := totalCount } →
      (∀ connection, connectionFromArray objects args = .ok connection →
        (getObjectsByType.resolve queryObjects connectionFromArray swapiType args).result =
          .ok { edges := connection.edges, pageInfo := connection.pageInfo,
                totalCount := totalCount }) ∧
      (∀ e, connectionFromArray objects args = .error e →
        (getObjectsByType.resolve queryObjects connectionFromArray swapiType args).result =
          .error e)) := by
  refine ⟨fun hf => ⟨fun c hc => ?_, fun e he => ?_⟩, fun hq => ⟨fun c hc => ?_, fun e he => ?_⟩⟩
  · simp only [rootConnection.resolve, hf, hc, withTotalCount]
  · simp only [rootConnection.resolve, hf, he]
  · simp only [getObjectsByType.resolve, hq, hc, withTotalCount]
  · simp only [getObjectsByType.resolve, hq, he]

/-- C9 as stated fails at `filmsByTitle(name: "", title: "A New Hope")`: the
name is a non-null string, yet the text passed to `queryObjects` is the title,
because line 67 tests the truthiness of `args.name` and `""` is falsy. -/
theorem getObjectsByType_query_counterexample :
    (getObjectsByType.resolve
        (fun _ _ => (Except.ok { objects := [], totalCount := 0 } :
          Except Unit (FetchedObjects Unit Nat)))
        (fun _ _ => Except.error ()) "films"
        (mkArgs [("name", .str ""), ("title", .str "A New Hope")])).queried =
      ("films", .str "A New Hope") ∧
    mkArgs [("name", .str ""), ("title", .str "A New Hope")] "name" ≠ .null ∧
    mkArgs [("name", .str ""), ("title", .str "A New Hope")] "name" ≠ .undefined ∧
    (getObjectsByType.resolve
        (fun _ _ => (Except.ok { objects := [], totalCount := 0 } :
          Except Unit (FetchedObjects Unit Nat)))
        (fun _ _ => Except.error ()) "films"
        (mkArgs [("name", .str ""), ("title", .str "A New Hope")])).queried ≠
      ("films", mkArgs [("name", .str ""), ("title", .str "A New Hope")] "name") := by
  refine ⟨by rfl, by decide, by decide, ?_⟩
  have h : (getObjectsByType.resolve
        (fun _ _ => (Except.ok { objects := [], totalCount := 0 } :
          Except Unit (FetchedObjects Unit Nat)))
        (fun _ _ => Except.error ()) "films"
        (mkArgs [("name", .str ""), ("title", .str "A New Hope")])).queried =
      ("films", .str "A New Hope") := by rfl
  rw [h]
  decide

/-- C9, as amended: the search resolver calls `queryObjects(objectType, query)`
where `query` is `args.name` when `args.name` is a non-empty string, and
`args.title` when `args.name` is `undefined`, `null` or the empty string. -/
theorem getObjectsByType_query_name_first {ε α τ : Type}
    (queryObjects : String → JSValue → Except ε (FetchedObjects α τ))
    (connectionFromArray : List α → Args → Except ε (Connection α))
    (objectType : String) (args : Args) :
    (∀ name, args "name" = .str name → name ≠ "" →
      (getObjectsByType.resolve queryObjects connectionFromArray objectType args).queried =
        (objectType, args "name")) ∧
    (args "name" = .undefined ∨ args "name" = .null ∨ args "name" = .str "" →
      (getObjectsByType.resolve queryObjects connectionFromArray objectType args).queried =
        (objectType, args "title")) := by
  constructor
  · intro name hname hne
    simp [getObjectsByType.resolve, getObjectsByType.query, hname, JSValue.truthy, hne]
  · intro h
    rcases h with h | h | h <;>
      simp [getObjectsByType.resolve, getObjectsByType.query, h, JSValue.truthy]

/-! ## Lemmas: windows of a list -/

/-- Dropping from an enumeration renumbers from further on. -/
theorem drop_enumFrom_eq {α : Type} (l : List α) (n k : Nat) :
    (l.enumFrom n).drop k = (l.drop k).enumFrom (n + k) := by
  induction k generalizing l n with
  | zero => simp
  | succ k ih =>
    cases l with
    | nil => simp
    | cons a l =>
      simp only [List.enumFrom_cons, List.drop_succ_cons]
      rw [ih]
      congr 1
      omega

/-- Taking from an enumeration keeps the numbering. -/
theorem take_enumFrom_eq {α : Type} (l : List α) (n k : Nat) :
    (l.enumFrom n).take k = (l.take k).enumFrom n := by
  induction k generalizing l n with
  | zero => simp
  | succ k ih =>
    cases l with
    | nil => simp
    | cons a l =>
      simp only [List.enumFrom_cons, List.take_succ_cons]
      rw [ih]

theorem window_take {α : Type} (records : List α) (s m k : Nat) :
    (window records s m).take k = window records s (min k m) := by
  unfold window
  rw [take_enumFrom_eq, List.take_take]

theorem window_drop {α : Type} (records : List α) (s m k : Nat) :
    (window records s m).drop k = window records (s + k) (m - k) := by
  unfold window
  rw [drop_enumFrom_eq, List.drop_take, List.drop_drop]

theorem window_length {α : Type} (records : List α) (s m : Nat) :
    (window records s m).length = min m (records.length - s) := by
  simp [window]

theorem window_getElem? {α : Type} (records : List α) (s m j : Nat) :
    (window records s m)[j]? =
      if j < m then (records[s + j]?).map (fun a => (s + j, a)) else none := by
  unfold window
  rw [List.getElem?_enumFrom]
  by_cases h : j < m
  · rw [if_pos h, List.getElem?_take_of_lt h, List.getElem?_drop]
  · rw [if_neg h, List.getElem?_take_eq_none (by omega)]
    rfl

/-- The first and the last element of a non-empty window between `s` and `e`
are the records at offsets `s` and `e - 1`. -/
theorem window_ends {α : Type} (records : List α) (s e : Nat) (hse : s < e)
    (he : e ≤ records.length) :
    ∃ a b, records[s]? = some a ∧ records[e - 1]? = some b ∧
      (window records s (e - s)).head? = some (s, a) ∧
      (window records s (e - s)).getLast? = some (e - 1, b) := by
  have hs : s < records.length := by omega
  have he1 : e - 1 < records.length := by omega
  refine ⟨records[s], records[e - 1], List.getElem?_eq_getElem hs,
    List.getElem?_eq_getElem he1, ?_, ?_⟩
  · rw [List.head?_eq_getElem?, window_getElem?, if_pos (by omega)]
    simp [List.getElem?_eq_getElem hs]
  · rw [List.getLast?_eq_getElem?, window_getElem?, window_length]
    have h1 : min (e - s) (records.length - s) = e - s := by omega
    rw [h1, if_pos (by omega)]
    have h2 : s + (e - s - 1) = e - 1 := by omega
    rw [h2, List.getElem?_eq_getElem he1]
    rfl

/-! ## Lemmas: the connection builder -/

/-- With `first` and `last` non-negative when given, the builder returns a
connection: the edges of its slice and the page flags of step 5. -/
theorem connectionFromArray_valid {α : Type} (codec : CursorCodec) (records : List α)
    (args : Args)
    (hfirst : ∀ n, args "first" = .num n → 0 ≤ n)
    (hlast : ∀ n, args "last" = .num n → 0 ≤ n) :
    ∃ connection, connectionFromArray codec records args = .ok connection ∧
      connection.edges = (connectionSlice codec records args).map
        (fun r => ({ node := r.2, cursor := codec.offsetToCursor r.1 } : Edge α)) ∧
      connection.pageInfo.hasPreviousPage =
        (match (connectionSlice codec records args).head? with
          | some r => decide (0 < r.1)
          | none => false) ∧
      connection.pageInfo.hasNextPage =
        (match (connectionSlice codec records args).getLast? with
          | some r => decide ((r.1 : Int) < (records.length : Int) - 1)
          | none => false) := by
  have hneg : ¬ ((∃ n, countArg (args "first") = some n ∧ n < 0) ∨
      (∃ n, countArg (args "last") = some n ∧ n < 0)) := by
    rintro (⟨n, hn, hlt⟩ | ⟨n, hn, hlt⟩)
    · cases hv : args "first" with
      | num k =>
        rw [hv] at hn
        simp only [countArg, Option.some.injEq] at hn
        have := hfirst k hv
        omega
      | undefined => rw [hv] at hn; simp [countArg] at hn
      | null => rw [hv] at hn; simp [countArg] at hn
      | str t => rw [hv] at hn; simp [countArg] at hn
    · cases hv : args "last" with
      | num k =>
        rw [hv] at hn
        simp only [countArg, Option.some.injEq] at hn
        have := hlast k hv
        omega
      | undefined => rw [hv] at hn; simp [countArg] at hn
      | null => rw [hv] at hn; simp [countArg] at hn
      | str t => rw [hv] at hn; simp [countArg] at hn
  unfold connectionFromArray
  rw [if_neg hneg]
  exact ⟨_, rfl, rfl, rfl, rfl⟩

/-- The resolver of a connection field, run with the builder of the spec,
after a fetch that succeeded and with valid count arguments. -/
theorem rootConnection_resolve_valid {α τ : Type} (codec : CursorCodec)
    (apiGetObjectsByType : String → Except String (FetchedObjects α τ))
    (swapiType : String) (args : Args) (records : List α) (totalCount : τ)
    (hfetch : apiGetObjectsByType swapiType =
      .ok { objects := records, totalCount := totalCount })
    (hfirst : ∀ n, args "first" = .num n → 0 ≤ n)
    (hlast : ∀ n, args "last" = .num n → 0 ≤ n) :
    ∃ connection,
      rootConnection.resolve apiGetObjectsByType (connectionFromArray codec) swapiType args =
        .ok connection ∧
      connection.totalCount = totalCount ∧
      connection.edges = (connectionSlice codec records args).map
        (fun r => ({ node := r.2, cursor := codec.offsetToCursor r.1 } : Edge α)) ∧
      connection.pageInfo.hasPreviousPage =
        (match (connectionSlice codec records args).head? with
          | some r => decide (0 < r.1)
          | none => false) ∧
      connection.pageInfo.hasNextPage =
        (match (connectionSlice codec records args).getLast? with
          | some r => decide ((r.1 : Int) < (records.length : Int) - 1)
          | none => false) := by
  obtain ⟨c, hc, he, hp, hn⟩ := connectionFromArray_valid codec records args hfirst hlast
  refine ⟨withTotalCount c totalCount, ?_, rfl, he, hp, hn⟩
  simp only [rootConnection.resolve, hfetch, hc]

/-- With none of `first`, `after`, `last`, `before` supplied the slice is the
whole list. -/
theorem connectionSlice_no_args {α : Type} (codec : CursorCodec) (records : List α)
    (args : Args)
    (hfirst : args "first" = .undefined ∨ args "first" = .null)
    (hafter : args "after" = .undefined ∨ args "after" = .null)
    (hlast : args "last" = .undefined ∨ args "last" = .null)
    (hbefore : args "before" = .undefined ∨ args "before" = .null) :
    connectionSlice codec records args = records.enum := by
  have h1 : countArg (args "first") = none := by rcases hfirst with h | h <;> rw [h] <;> rfl
  have h2 : cursorArg codec (args "after") = none := by
    rcases hafter with h | h <;> rw [h] <;> rfl
  have h3 : countArg (args "last") = none := by rcases hlast with h | h <;> rw [h] <;> rfl
  have h4 : cursorArg codec (args "before") = none := by
    rcases hbefore with h | h <;> rw [h] <;> rfl
  unfold connectionSlice
  simp only [h1, h2, h3, h4, applyFirst, applyLast, List.drop_zero, Nat.sub_zero]
  rw [List.take_of_length_le]
  simp [List.enum]

/-! ## Lemmas: the offsets of the slice -/

theorem window_clamp {α : Type} (records : List α) (s m : Nat) :
    window records s m = window records s (min m (records.length - s)) := by
  unfold window
  congr 1
  rw [← List.take_take]
  congr 1
  rw [List.take_of_length_le]
  simp

theorem window_eq_of {α : Type} (records : List α) (s m s1 m1 : Nat)
    (hcount : min m (records.length - s) = min m1 (records.length - s1))
    (hstart : min m (records.length - s) = 0 ∨ s = s1) :
    window records s m = window records s1 m1 := by
  by_cases h0 : min m (records.length - s) = 0
  · have ha : window records s m = [] :=
      List.length_eq_zero.mp (by rw [window_length]; exact h0)
    have hb : window records s1 m1 = [] :=
      List.length_eq_zero.mp (by rw [window_length, ← hcount]; exact h0)
    rw [ha, hb]
  · have hs : s = s1 := by
      rcases hstart with h | h
      · exact absurd h h0
      · exact h
    subst hs
    rw [window_clamp records s m, window_clamp records s m1, hcount]

theorem clampBounds_le (start stop length : Nat) (first last : Option Int) :
    (clampBounds start stop length first last).1 ≤ (clampBounds start stop length first last).2 ∧
      (clampBounds start stop length first last).2 ≤ length := by
  unfold clampBounds
  cases first <;> cases last <;> simp only [] <;> constructor <;> omega

theorem window_bounded {α : Type} (records : List α) (start stop : Nat) :
    window records start (stop - start) =
      window records (min start records.length)
        (max (min start records.length) (min stop records.length) -
          min start records.length) := by
  generalize hlen : records.length = len
  exact window_eq_of records _ _ _ _ (by rw [hlen]; omega) (by rw [hlen]; omega)

theorem window_first {α : Type} (records : List α) (lo hi k : Nat) :
    (window records lo (hi - lo)).take k = window records lo (min hi (lo + k) - lo) := by
  rw [window_take]
  congr 1
  omega

theorem window_last {α : Type} (records : List α) (lo hi k : Nat) (hle : lo ≤ hi)
    (hhi : hi ≤ records.length) :
    (window records lo (hi - lo)).drop ((window records lo (hi - lo)).length - k) =
      window records (max lo (hi - k)) (hi - max lo (hi - k)) := by
  rw [window_drop, window_length]
  have h1 : min (hi - lo) (records.length - lo) = hi - lo := by omega
  rw [h1]
  have h2 : lo + (hi - lo - k) = max lo (hi - k) := by omega
  have h3 : hi - lo - (hi - lo - k) = hi - max lo (hi - k) := by omega
  rw [h2, h3]

theorem applyLast_applyFirst_window {α : Type} (records : List α) (start stop : Nat)
    (first last : Option Int) :
    applyLast last (applyFirst first (window records start (stop - start))) =
      window records (clampBounds start stop records.length first last).1
        ((clampBounds start stop records.length first last).2 -
          (clampBounds start stop records.length first last).1) := by
  rw [window_bounded]
  unfold clampBounds
  simp only []
  have hlo : min start records.length ≤
      max (min start records.length) (min stop records.length) := by omega
  have hhi : max (min start records.length) (min stop records.length) ≤ records.length := by
    omega
  generalize min start records.length = lo at hlo hhi ⊢
  generalize max lo (min stop records.length) = hi at hlo hhi ⊢
  cases first with
  | none =>
    cases last with
    | none => rfl
    | some k =>
      simp only [applyFirst, applyLast]
      exact window_last records lo hi _ hlo hhi
  | some n =>
    cases last with
    | none =>
      simp only [applyFirst, applyLast]
      exact window_first records lo hi _
    | some k =>
      simp only [applyFirst, applyLast]
      rw [window_first]
      exact window_last records lo _ _ (by omega) (by omega)

theorem sliceBounds_le (codec : CursorCodec) (length : Nat) (args : Args) :
    (sliceBounds codec length args).1 ≤ (sliceBounds codec length args).2 ∧
      (sliceBounds codec length args).2 ≤ length :=
  clampBounds_le _ _ _ _ _

theorem connectionSlice_eq_window {α : Type} (codec : CursorCodec) (records : List α)
    (args : Args) :
    connectionSlice codec records args =
      window records (sliceBounds codec records.length args).1
        ((sliceBounds codec records.length args).2 -
          (sliceBounds codec records.length args).1) := by
  unfold connectionSlice sliceBounds
  simp only []
  rw [← applyLast_applyFirst_window]
  congr 2
  unfold window List.enum
  rw [drop_enumFrom_eq, take_enumFrom_eq, Nat.zero_add]


theorem window_map_snd {α : Type} (records : List α) (s m : Nat) :
    (window records s m).map Prod.snd = (records.drop s).take m := by
  unfold window
  exact List.enumFrom_map_snd _ _

theorem window_empty {α : Type} (records : List α) (s : Nat) : window records s 0 = [] := by
  simp [window]

/-- The resolver of a connection field, run with the builder of the spec after
a fetch that succeeded and with valid count arguments: its edges are the
records between the two offsets of `sliceBounds`, and the page flags compare
these offsets with 0 and with `records.length`. -/
theorem rootConnection_resolve_bounds {α τ : Type} (codec : CursorCodec)
    (apiGetObjectsByType : String → Except String (FetchedObjects α τ))
    (swapiType : String) (args : Args) (records : List α) (totalCount : τ)
    (hfetch : apiGetObjectsByType swapiType =
      .ok { objects := records, totalCount := totalCount })
    (hfirst : ∀ n, args "first" = .num n → 0 ≤ n)
    (hlast : ∀ n, args "last" = .num n → 0 ≤ n) :
    ∃ connection,
      rootConnection.resolve apiGetObjectsByType (connectionFromArray codec) swapiType args =
        .ok connection ∧
      connection.edges =
        (window records (sliceBounds codec records.length args).1
          ((sliceBounds codec records.length args).2 -
            (sliceBounds codec records.length args).1)).map
          (fun r => ({ node := r.2, cursor := codec.offsetToCursor r.1 } : Edge α)) ∧
      (connection.pageInfo.hasPreviousPage = true ↔
        (sliceBounds codec records.length args).1 < (sliceBounds codec records.length args).2 ∧
          0 < (sliceBounds codec records.length args).1) ∧
      (connection.pageInfo.hasNextPage = true ↔
        (sliceBounds codec records.length args).1 < (sliceBounds codec records.length args).2 ∧
          (sliceBounds codec records.length args).2 < records.length) := by
  obtain ⟨c, hc, _, he, hp, hn⟩ := rootConnection_resolve_valid codec apiGetObjectsByType
    swapiType args records totalCount hfetch hfirst hlast
  obtain ⟨hle, hlen⟩ := sliceBounds_le codec records.length args
  rw [connectionSlice_eq_window] at he hp hn
  generalize (sliceBounds codec records.length args).1 = s at *
  generalize (sliceBounds codec records.length args).2 = e at *
  refine ⟨c, hc, he, ?_, ?_⟩
  · by_cases hse : s < e
    · obtain ⟨a, b, _, _, hhead, _⟩ := window_ends records s e hse hlen
      rw [hp, hhead]
      simp [hse]
    · have h0 : e - s = 0 := by omega
      rw [hp, h0, window_empty]
      simp [hse]
  · by_cases hse : s < e
    · obtain ⟨a, b, _, _, _, hlast2⟩ := window_ends records s e hse hlen
      rw [hn, hlast2]
      simp only [decide_eq_true_eq, hse, true_and]
      omega
    · have h0 : e - s = 0 := by omega
      rw [hn, h0, window_empty]
      simp [hse]

theorem mkArgs_single (key : String) (value : JSValue) (k : String) :
    mkArgs [(key, value)] k = if key = k then value else .undefined := by
  unfold mkArgs
  by_cases h : key = k
  · simp [h]
  · simp [h]

/-- Used as `after` alone, the cursor of offset `i` addresses the records after
offset `i`. -/
theorem sliceBounds_after (codec : CursorCodec) (length i : Nat) (cursor : String)
    (hi : i < length) (hc : codec.cursorToOffset cursor = some i) :
    sliceBounds codec length (mkArgs [("after", .str cursor)]) = (i + 1, length) := by
  unfold sliceBounds clampBounds
  simp only [mkArgs_single]
  simp only [String.reduceEq, if_true, if_false, cursorArg, countArg, hc]
  simp only [Prod.mk.injEq]
  omega

/-- Used as `before` alone, the cursor of offset `i` addresses the records
before offset `i`. -/
theorem sliceBounds_before (codec : CursorCodec) (length i : Nat) (cursor : String)
    (hi : i < length) (hc : codec.cursorToOffset cursor = some i) :
    sliceBounds codec length (mkArgs [("before", .str cursor)]) = (0, i) := by
  unfold sliceBounds clampBounds
  simp only [mkArgs_single]
  simp only [String.reduceEq, if_true, if_false, cursorArg, countArg, hc]
  simp only [Prod.mk.injEq]
  omega

/-! ## Theorems: the connection builder behind `rootConnection` -/

/-- C6: with `N` records fetched and none of `first`, `after`, `last`,
`before` supplied, the connection resolver returns `N` edges whose nodes are
the records in their order (the edge at position `i` carrying the cursor of
offset `i`), with `hasNextPage` and `hasPreviousPage` both false; `N = 0`
included. -/
theorem rootConnection_resolve_no_pagination {α τ : Type} (codec : CursorCodec)
    (apiGetObjectsByType : String → Except String (FetchedObjects α τ))
    (swapiType : String) (args : Args) (records : List α) (totalCount : τ)
    (hfetch : apiGetObjectsByType swapiType =
      .ok { objects := records, totalCount := totalCount })
    (hfirst : args "first" = .undefined ∨ args "first" = .null)
    (hafter : args "after" = .undefined ∨ args "after" = .null)
    (hlast : args "last" = .undefined ∨ args "last" = .null)
    (hbefore : args "before" = .undefined ∨ args "before" = .null) :
    ∃ connection,
      rootConnection.resolve apiGetObjectsByType (connectionFromArray codec) swapiType args =
        .ok connection ∧
      connection.edges.length = records.length ∧
      connection.edges.map (fun e => e.node) = records ∧
      connection.edges.map (fun e => e.cursor) =
        (List.range records.length).map codec.offsetToCursor ∧
      connection.pageInfo.hasNextPage = false ∧
      connection.pageInfo.hasPreviousPage = false := by
  have hf : ∀ n, args "first" = .num n → 0 ≤ n := by
    intro n hn; rcases hfirst with h | h <;> rw [h] at hn <;> cases hn
  have hl : ∀ n, args "last" = .num n → 0 ≤ n := by
    intro n hn; rcases hlast with h | h <;> rw [h] at hn <;> cases hn
  obtain ⟨c, hc, _, he, hp, hn⟩ := rootConnection_resolve_valid codec apiGetObjectsByType
    swapiType args records totalCount hfetch hf hl
  rw [connectionSlice_no_args codec records args hfirst hafter hlast hbefore] at he hp hn
  refine ⟨c, hc, ?_, ?_, ?_, ?_, ?_⟩
  · rw [he]; simp [List.enum]
  · rw [he, List.map_map]
    exact List.enumFrom_map_snd 0 records
  · rw [he, List.map_map]
    have h : (fun e : Edge α => e.cursor) ∘
        (fun r : Nat × α => ({ node := r.2, cursor := codec.offsetToCursor r.1 } : Edge α)) =
        codec.offsetToCursor ∘ Prod.fst := rfl
    rw [h, ← List.map_map]
    congr 1
    exact List.enum_map_fst records
  · rw [hn]
    unfold List.enum
    rw [List.getLast?_enumFrom]
    cases hg : records.getLast? with
    | none => rfl
    | some a =>
      have hne : records ≠ [] := by
        intro h0; rw [h0] at hg; cases hg
      have hpos : 0 < records.length := List.length_pos.mpr hne
      simp only [Option.map_some', decide_eq_false_iff_not, not_lt]
      omega
  · rw [hp]
    unfold List.enum
    rw [List.head?_enumFrom]
    cases records.head? with
    | none => rfl
    | some a => simp

/-- C6 at five records and at no record, with an empty `args` object. -/
theorem rootConnection_resolve_no_pagination_witness :
    (∃ connection,
      rootConnection.resolve
          (fun _ => (Except.ok { objects := ["a", "b", "c", "d", "e"], totalCount := 87 } :
            Except String (FetchedObjects String Nat)))
          (connectionFromArray decimalCursor) "people" (mkArgs []) = .ok connection ∧
      connection.edges.length = 5 ∧
      connection.edges.map (fun e => e.node) = ["a", "b", "c", "d", "e"] ∧
      connection.edges.map (fun e => e.cursor) = ["0", "1", "2", "3", "4"] ∧
      connection.pageInfo.hasNextPage = false ∧
      connection.pageInfo.hasPreviousPage = false) ∧
    (∃ connection,
      rootConnection.resolve
          (fun _ => (Except.ok { objects := [], totalCount := 0 } :
            Except String (FetchedObjects String Nat)))
          (connectionFromArray decimalCursor) "people" (mkArgs []) = .ok connection ∧
      connection.edges.length = 0 ∧
      connection.pageInfo.hasNextPage = false ∧
      connection.pageInfo.hasPreviousPage = false) := by
  constructor
  · exact rootConnection_resolve_no_pagination decimalCursor
      (fun _ => Except.ok { objects := ["a", "b", "c", "d", "e"], totalCount := 87 })
      "people" (mkArgs []) ["a", "b", "c", "d", "e"] 87 rfl
      (Or.inl rfl) (Or.inl rfl) (Or.inl rfl) (Or.inl rfl)
  · obtain ⟨c, hc, h1, _, _, h2, h3⟩ := rootConnection_resolve_no_pagination decimalCursor
      (fun _ => (Except.ok { objects := [], totalCount := 0 } :
        Except String (FetchedObjects String Nat)))
      "people" (mkArgs []) [] 0 rfl
      (Or.inl rfl) (Or.inl rfl) (Or.inl rfl) (Or.inl rfl)
    exact ⟨c, hc, h1, h2, h3⟩

/-- C7: for valid pagination arguments (`first` and `last` non-negative when
given) and a cursor encoding that decodes the cursors it gives to the offsets
below `records.length`, the connection returned by the connection resolver
holds `e - s` edges, where `(s, e)` are the offsets of the slice for these
arguments.  Whenever that is at least one edge (`s < e`), the cursor of its
first edge names the offset `s` and the cursor of its last edge the offset
`e - 1` of the fetched records (the offsets of the nodes of these edges);
`hasNextPage` is true exactly when `e - 1 < records.length - 1`, and
`hasPreviousPage` exactly when `s > 0`. -/
theorem rootConnection_resolve_page_flags {α τ : Type} (codec : CursorCodec)
    (apiGetObjectsByType : String → Except String (FetchedObjects α τ))
    (swapiType : String) (args : Args) (records : List α) (totalCount : τ)
    (hfetch : apiGetObjectsByType swapiType =
      .ok { objects := records, totalCount := totalCount })
    (hfirst : ∀ n, args "first" = .num n → 0 ≤ n)
    (hlast : ∀ n, args "last" = .num n → 0 ≤ n)
    (hcodec : ∀ i, i < records.length →
      codec.cursorToOffset (codec.offsetToCursor i) = some i) :
    ∃ connection s e,
      sliceBounds codec records.length args = (s, e) ∧
      rootConnection.resolve apiGetObjectsByType (connectionFromArray codec) swapiType args =
        .ok connection ∧
      connection.edges.length = e - s ∧ e ≤ records.length ∧
      (s < e → ∃ firstEdge lastEdge,
        connection.edges.head? = some firstEdge ∧
        connection.edges.getLast? = some lastEdge ∧
        codec.cursorToOffset firstEdge.cursor = some s ∧
        codec.cursorToOffset lastEdge.cursor = some (e - 1) ∧
        records[s]? = some firstEdge.node ∧ records[e - 1]? = some lastEdge.node ∧
        (connection.pageInfo.hasNextPage = true ↔
          ((e - 1 : Nat) : Int) < (records.length : Int) - 1) ∧
        (connection.pageInfo.hasPreviousPage = true ↔ 0 < s)) := by
  obtain ⟨c, hc, he, hp, hn⟩ := rootConnection_resolve_bounds codec apiGetObjectsByType
    swapiType args records totalCount hfetch hfirst hlast
  obtain ⟨hle, hlen⟩ := sliceBounds_le codec records.length args
  refine ⟨c, (sliceBounds codec records.length args).1,
    (sliceBounds codec records.length args).2, rfl, hc, ?_, hlen, ?_⟩
  · rw [he, List.length_map, window_length]
    omega
  · intro hse
    obtain ⟨a, b, ha, hb, hhead, hlast2⟩ := window_ends records _ _ hse hlen
    refine ⟨{ node := a, cursor := codec.offsetToCursor _ },
      { node := b, cursor := codec.offsetToCursor _ }, ?_, ?_,
      hcodec _ (by omega), hcodec _ (by omega), ha, hb, ?_, ?_⟩
    · rw [he, List.head?_map, hhead]
      rfl
    · rw [he, List.getLast?_map, hlast2]
      rfl
    · rw [hn]
      constructor
      · rintro ⟨_, h2⟩
        omega
      · intro h2
        exact ⟨hse, by omega⟩
    · rw [hp]
      exact ⟨fun h => h.2, fun h => ⟨hse, h⟩⟩

/-- C7 at `last: 2` on five records: the slice lies between the offsets 3 and
5, the resolver returns two edges whose cursors name the offsets 3 and 4,
`hasNextPage` is false (4 is not below 4) and `hasPreviousPage` is true (3 is
above 0). -/
theorem rootConnection_resolve_page_flags_witness :
    ∃ connection,
      rootConnection.resolve
          (fun _ => (Except.ok { objects := ["a", "b", "c", "d", "e"], totalCount := 5 } :
            Except String (FetchedObjects String Nat)))
          (connectionFromArray decimalCursor) "people" (mkArgs [("last", .num 2)]) =
        .ok connection ∧
      connection.edges.length = 2 ∧
      (∃ firstEdge lastEdge,
        connection.edges.head? = some firstEdge ∧
        connection.edges.getLast? = some lastEdge ∧
        decimalCursor.cursorToOffset firstEdge.cursor = some 3 ∧
        decimalCursor.cursorToOffset lastEdge.cursor = some 4 ∧
        firstEdge.node = "d" ∧ lastEdge.node = "e") ∧
      connection.pageInfo.hasNextPage = false ∧
      connection.pageInfo.hasPreviousPage = true := by
  obtain ⟨c, s, e, hb, hc, hlen, _, h⟩ := rootConnection_resolve_page_flags decimalCursor
    (fun _ => (Except.ok { objects := ["a", "b", "c", "d", "e"], totalCount := 5 } :
      Except String (FetchedObjects String Nat)))
    "people" (mkArgs [("last", .num 2)]) ["a", "b", "c", "d", "e"] 5 rfl
    (by
      intro n hn
      have h : mkArgs [("last", JSValue.num 2)] "first" = .undefined := rfl
      rw [h] at hn
      cases hn)
    (by
      intro n hn
      have h : mkArgs [("last", JSValue.num 2)] "last" = .num 2 := rfl
      rw [h] at hn
      cases hn
      decide)
    (by decide)
  have hb2 : sliceBounds decimalCursor (["a", "b", "c", "d", "e"] : List String).length
      (mkArgs [("last", .num 2)]) = (3, 5) := by rfl
  rw [hb2] at hb
  cases hb
  obtain ⟨firstEdge, lastEdge, h1, h2, h3, h4, h5, h6, hnext, hprev⟩ := h (by decide)
  refine ⟨c, hc, hlen, ⟨firstEdge, lastEdge, h1, h2, h3, h4, ?_, ?_⟩, ?_, hprev.mpr (by decide)⟩
  · have h7 : (["a", "b", "c", "d", "e"] : List String)[3]? = some "d" := rfl
    rw [h7] at h5
    exact (Option.some.inj h5).symm
  · have h7 : (["a", "b", "c", "d", "e"] : List String)[5 - 1]? = some "e" := rfl
    rw [h7] at h6
    exact (Option.some.inj h6).symm
  · cases hv : c.pageInfo.hasNextPage with
    | false => rfl
    | true =>
      have h8 := hnext.mp hv
      simp at h8

/-- The nodes of the connection returned for the arguments `args`, when the
slice for these arguments lies between the offsets `s` and `e`. -/
theorem rootConnection_resolve_nodes {α τ : Type} (codec : CursorCodec)
    (apiGetObjectsByType : String → Except String (FetchedObjects α τ))
    (swapiType : String) (args : Args) (records : List α) (totalCount : τ) (s e : Nat)
    (hfetch : apiGetObjectsByType swapiType =
      .ok { objects := records, totalCount := totalCount })
    (hfirst : ∀ n, args "first" = .num n → 0 ≤ n)
    (hlast : ∀ n, args "last" = .num n → 0 ≤ n)
    (hb : sliceBounds codec records.length args = (s, e)) :
    ∃ connection,
      rootConnection.resolve apiGetObjectsByType (connectionFromArray codec) swapiType args =
        .ok connection ∧
      connection.edges.map (fun edge => edge.node) = (records.drop s).take (e - s) := by
  obtain ⟨c, hc, he, _, _⟩ := rootConnection_resolve_bounds codec apiGetObjectsByType
    swapiType args records totalCount hfetch hfirst hlast
  refine ⟨c, hc, ?_⟩
  rw [he, hb, List.map_map]
  exact window_map_snd records s (e - s)

/-- C8: for valid pagination arguments the edges returned by the connection
resolver are a contiguous run of the fetched records in their order.  With
`(s, e)` the offsets of the slice for these arguments, `s ≤ e ≤
records.length`, there are `e - s` edges, and the edge at position `j` holds
`records[s + j]` and the cursor that encodes the absolute offset `s + j`.
When that cursor decodes to `s + j`, handing it back to the resolver as
`after` gives the records after offset `s + j`, and handing it back as
`before` gives the records before offset `s + j`. -/
theorem rootConnection_resolve_contiguous {α τ : Type} (codec : CursorCodec)
    (apiGetObjectsByType : String → Except String (FetchedObjects α τ))
    (swapiType : String) (args : Args) (records : List α) (totalCount : τ)
    (hfetch : apiGetObjectsByType swapiType =
      .ok { objects := records, totalCount := totalCount })
    (hfirst : ∀ n, args "first" = .num n → 0 ≤ n)
    (hlast : ∀ n, args "last" = .num n → 0 ≤ n) :
    ∃ connection s e,
      sliceBounds codec records.length args = (s, e) ∧
      rootConnection.resolve apiGetObjectsByType (connectionFromArray codec) swapiType args =
        .ok connection ∧
      s ≤ e ∧ e ≤ records.length ∧ connection.edges.length = e - s ∧
      (∀ j, j < e - s → ∃ edge, connection.edges[j]? = some edge ∧
        records[s + j]? = some edge.node ∧ edge.cursor = codec.offsetToCursor (s + j) ∧
        (codec.cursorToOffset edge.cursor = some (s + j) →
          (∃ following,
            rootConnection.resolve apiGetObjectsByType (connectionFromArray codec) swapiType
                (mkArgs [("after", .str edge.cursor)]) = .ok following ∧
              following.edges.map (fun x => x.node) = records.drop (s + j + 1)) ∧
          (∃ preceding,
            rootConnection.resolve apiGetObjectsByType (connectionFromArray codec) swapiType
                (mkArgs [("before", .str edge.cursor)]) = .ok preceding ∧
              preceding.edges.map (fun x => x.node) = records.take (s + j)))) := by
  obtain ⟨c, hc, he, _, _⟩ := rootConnection_resolve_bounds codec apiGetObjectsByType
    swapiType args records totalCount hfetch hfirst hlast
  obtain ⟨hle, hlen⟩ := sliceBounds_le codec records.length args
  generalize hs : (sliceBounds codec records.length args).1 = s at he hle
  generalize hev : (sliceBounds codec records.length args).2 = e at he hle hlen
  have hb : sliceBounds codec records.length args = (s, e) := by
    rw [← hs, ← hev]
  refine ⟨c, s, e, hb, hc, hle, hlen, ?_, ?_⟩
  · rw [he, List.length_map, window_length]
    omega
  · intro j hj
    have hsj : s + j < records.length := by omega
    refine ⟨{ node := records[s + j], cursor := codec.offsetToCursor (s + j) }, ?_,
      List.getElem?_eq_getElem hsj, rfl, ?_⟩
    · rw [he, List.getElem?_map, window_getElem?, if_pos hj, List.getElem?_eq_getElem hsj]
      rfl
    · intro hdec
      have hundef : ∀ (key : String) (value : JSValue) (k : String) (n : Int),
          key ≠ k → mkArgs [(key, value)] k = .num n → 0 ≤ n := by
        intro key value k n hk hn
        rw [mkArgs_single, if_neg hk] at hn
        cases hn
      constructor
      · obtain ⟨c2, hc2, hn2⟩ := rootConnection_resolve_nodes codec apiGetObjectsByType
          swapiType (mkArgs [("after", .str (codec.offsetToCursor (s + j)))]) records
          totalCount (s + j + 1) records.length hfetch
          (fun n hn => hundef _ _ _ n (by decide) hn)
          (fun n hn => hundef _ _ _ n (by decide) hn)
          (sliceBounds_after codec records.length (s + j) _ hsj hdec)
        refine ⟨c2, hc2, ?_⟩
        rw [hn2, List.take_of_length_le]
        simp
      · obtain ⟨c3, hc3, hn3⟩ := rootConnection_resolve_nodes codec apiGetObjectsByType
          swapiType (mkArgs [("before", .str (codec.offsetToCursor (s + j)))]) records
          totalCount 0 (s + j) hfetch
          (fun n hn => hundef _ _ _ n (by decide) hn)
          (fun n hn => hundef _ _ _ n (by decide) hn)
          (sliceBounds_before codec records.length (s + j) _ hsj hdec)
        refine ⟨c3, hc3, ?_⟩
        rw [hn3]
        simp

/-- C8 at `after: cursor(1), first: 2` on five records: the slice lies between
the offsets 2 and 4, and the resolver returns the two edges holding
`records[2]` and `records[3]` with the cursors of the offsets 2 and 3.  Handed
back as `after`, the cursor of the first edge gives the records after offset
2, and handed back as `before` the records before offset 2. -/
theorem rootConnection_resolve_contiguous_witness :
    ∃ connection,
      rootConnection.resolve
          (fun _ => (Except.ok { objects := ["a", "b", "c", "d", "e"], totalCount := 5 } :
            Except String (FetchedObjects String Nat)))
          (connectionFromArray decimalCursor) "people"
          (mkArgs [("after", .str (decimalCursor.offsetToCursor 1)), ("first", .num 2)]) =
        .ok connection ∧
      connection.edges.length = 2 ∧
      (∃ edge, connection.edges[0]? = some edge ∧ edge.node = "c" ∧
        edge.cursor = decimalCursor.offsetToCursor 2 ∧
        (∃ following,
          rootConnection.resolve
              (fun _ => (Except.ok { objects := ["a", "b", "c", "d", "e"], totalCount := 5 } :
                Except String (FetchedObjects String Nat)))
              (connectionFromArray decimalCursor) "people"
              (mkArgs [("after", .str edge.cursor)]) = .ok following ∧
            following.edges.map (fun x => x.node) = ["d", "e"]) ∧
        (∃ preceding,
          rootConnection.resolve
              (fun _ => (Except.ok { objects := ["a", "b", "c", "d", "e"], totalCount := 5 } :
                Except String (FetchedObjects String Nat)))
              (connectionFromArray decimalCursor) "people"
              (mkArgs [("before", .str edge.cursor)]) = .ok preceding ∧
            preceding.edges.map (fun x => x.node) = ["a", "b"])) ∧
      (∃ edge, connection.edges[1]? = some edge ∧ edge.node = "d" ∧
        edge.cursor = decimalCursor.offsetToCursor 3) := by
  obtain ⟨c, s, e, hb, hc, _, _, hlen, h⟩ := rootConnection_resolve_contiguous decimalCursor
    (fun _ => (Except.ok { objects := ["a", "b", "c", "d", "e"], totalCount := 5 } :
      Except String (FetchedObjects String Nat)))
    "people" (mkArgs [("after", .str (decimalCursor.offsetToCursor 1)), ("first", .num 2)])
    ["a", "b", "c", "d", "e"] 5 rfl
    (by
      intro n hn
      have h : mkArgs [("after", .str (decimalCursor.offsetToCursor 1)), ("first", .num 2)]
          "first" = .num 2 := rfl
      rw [h] at hn
      cases hn
      decide)
    (by
      intro n hn
      have h : mkArgs [("after", .str (decimalCursor.offsetToCursor 1)), ("first", .num 2)]
          "last" = .undefined := rfl
      rw [h] at hn
      cases hn)
  have hb2 : sliceBounds decimalCursor (["a", "b", "c", "d", "e"] : List String).length
      (mkArgs [("after", .str (decimalCursor.offsetToCursor 1)), ("first", .num 2)]) =
      (2, 4) := by rfl
  rw [hb2] at hb
  cases hb
  obtain ⟨edge0, h01, h02, h03, h04⟩ := h 0 (by decide)
  obtain ⟨edge1, h11, h12, h13, _⟩ := h 1 (by decide)
  have hdec : decimalCursor.cursorToOffset edge0.cursor = some (2 + 0) := by
    rw [h03]; rfl
  obtain ⟨⟨following, hf1, hf2⟩, ⟨preceding, hp1, hp2⟩⟩ := h04 hdec
  refine ⟨c, hc, hlen, ⟨edge0, h01, ?_, h03, ⟨following, hf1, hf2⟩, ⟨preceding, hp1, hp2⟩⟩,
    ⟨edge1, h11, ?_, h13⟩⟩
  · have h7 : (["a", "b", "c", "d", "e"] : List String)[2 + 0]? = some "c" := rfl
    rw [h7] at h02
    exact (Option.some.inj h02).symm
  · have h7 : (["a", "b", "c", "d", "e"] : List String)[2 + 1]? = some "d" := rfl
    rw [h7] at h12
    exact (Option.some.inj h12).symm

/-- C5 at two fetched objects with a reported total of 87 and `first: 1`: the
connection holds one edge and `totalCount` is 87. -/
theorem resolve_totalCount_verbatim_witness :
    rootConnection.resolve
        (fun _ => (Except.ok { objects := ["a", "b"], totalCount := 87 } :
          Except String (FetchedObjects String Nat)))
        (connectionFromArray decimalCursor) "people" (mkArgs [("first", .num 1)]) =
      .ok { edges := [{ node := "a", cursor := "0" }],
            pageInfo := { startCursor := some "0", endCursor := some "0",
                          hasPreviousPage := false, hasNextPage := true },
            totalCount := 87 } ∧
    (getObjectsByType.resolve
        (fun _ _ => (Except.ok { objects := ["a", "b"], totalCount := 87 } :
          Except String (FetchedObjects String Nat)))
        (connectionFromArray decimalCursor) "people" (mkArgs [("name", .str "Luke")])).result =
      .ok { edges := [{ node := "a", cursor := "0" }, { node := "b", cursor := "1" }],
            pageInfo := { startCursor := some "0", endCursor := some "1",
                          hasPreviousPage := false, hasNextPage := false },
            totalCount := 87 } :=
  have h := resolve_totalCount_verbatim
    (fun _ => (Except.ok { objects := ["a", "b"], totalCount := 87 } :
      Except String (FetchedObjects String Nat)))
    (fun _ _ => (Except.ok { objects := ["a", "b"], totalCount := 87 } :
      Except String (FetchedObjects String Nat)))
    (connectionFromArray decimalCursor) "people"
  ⟨((h (mkArgs [("first", .num 1)]) ["a", "b"] 87).1 rfl).1 _ rfl,
   ((h (mkArgs [("name", .str "Luke")]) ["a", "b"] 87).2 rfl).1 _ rfl⟩

/-- C9 as amended, at `peopleByName(name: "Luke", title: "x")` and at
`filmsByTitle(title: "A New Hope")`. -/
theorem getObjectsByType_query_name_first_witness :
    (getObjectsByType.resolve
        (fun _ _ => (Except.ok { objects := [], totalCount := 0 } :
          Except Unit (FetchedObjects Unit Nat)))
        (fun _ _ => Except.error ()) "people"
        (mkArgs [("name", .str "Luke"), ("title", .str "x")])).queried =
      ("people", .str "Luke") ∧
    (getObjectsByType.resolve
        (fun _ _ => (Except.ok { objects := [], totalCount := 0 } :
          Except Unit (FetchedObjects Unit Nat)))
        (fun _ _ => Except.error ()) "films"
        (mkArgs [("title", .str "A New Hope")])).queried =
      ("films", .str "A New Hope") :=
  ⟨(getObjectsByType_query_name_first
      (fun _ _ => (Except.ok { objects := [], totalCount := 0 } :
        Except Unit (FetchedObjects Unit Nat)))
      (fun _ _ => Except.error ()) "people"
      (mkArgs [("name", .str "Luke"), ("title", .str "x")])).1 "Luke" rfl (by decide),
   (getObjectsByType_query_name_first
      (fun _ _ => (Except.ok { objects := [], totalCount := 0 } :
        Except Unit (FetchedObjects Unit Nat)))
      (fun _ _ => Except.error ()) "films"
      (mkArgs [("title", .str "A New Hope")])).2 (Or.inl rfl)⟩

end SwapiGraphql
